import Mathlib

/-!
# Verification of the D-Bus discovery/introspection core

A shallow embedding of `src/dbus_introspection.rs` (the discovery/traversal
engine and the introspection-schema parser of the dbus_explorer repository),
together with theorems settling the specification claims about it.

Modelling conventions:
* The external collaborators (the bus transport and the quick-xml
  deserializer) are passed in explicitly as a `BusEnv` record of functions;
  a transport or deserializer outcome is an `Except String _` value
  (`.ok` for Rust `Ok`, `.error e` with `e` the rendered error string).
* The `while let Some(..) = stack.pop()` loop of `analyze_service` is
  embedded with an explicit fuel parameter; running out of fuel yields
  `none`.  The Rust `Vec` stack is represented by a `List` whose *head* is
  the top of the stack (`push` is `cons`, `pop` takes the head), which
  matches `Vec::push`/`Vec::pop` order exactly.
* `analyze_serviceT` additionally threads a ghost trace: the list of object
  paths passed to `introspect_object`, in call order.  `analyze_service`
  is its first projection.
* Logging (`log::debug!`) has no effect on any returned value; only the
  decision *whether* a failed parse would be logged is modelled
  (`logs_failed_parse`), so that claims about it can be stated.
* Rust `String` operations are modelled on the character list `String.data`
  (for valid UTF-8, Rust's byte-wise order and containment coincide with
  the code-point-wise ones used here).
* The serde struct `DbusAnnotation` is rendered here as `DbusAnnot`
  (fields `annots`), keeping the rest of the source names.
-/

/-- Rust struct `ArgumentInfo` (dbus_introspection.rs lines 56-64). -/
structure ArgumentInfo where
  name : Option String
  type_name : String
  direction : Option String
  description : Option String
deriving DecidableEq, Repr

/-- Rust struct `MethodInfo` (lines 33-39). -/
structure MethodInfo where
  name : String
  arguments : List ArgumentInfo
  return_values : List ArgumentInfo
  description : Option String
deriving DecidableEq, Repr

/-- Rust struct `PropertyInfo` (lines 41-47). -/
structure PropertyInfo where
  name : String
  type_name : String
  access : String
  description : Option String
deriving DecidableEq, Repr

/-- Rust struct `SignalInfo` (lines 49-54). -/
structure SignalInfo where
  name : String
  arguments : List ArgumentInfo
  description : Option String
deriving DecidableEq, Repr

/-- Rust struct `InterfaceInfo` (lines 24-31). -/
structure InterfaceInfo where
  name : String
  methods : List MethodInfo
  properties : List PropertyInfo
  signals : List SignalInfo
  description : Option String
deriving DecidableEq, Repr

/-- Rust struct `ObjectInfo` (lines 16-22). -/
structure ObjectInfo where
  path : String
  interfaces : List InterfaceInfo
  error : Option String
  child_nodes : List String
deriving DecidableEq, Repr

/-- Rust struct `ServiceInfo` (lines 8-14). -/
structure ServiceInfo where
  name : String
  owner : Option String
  objects : List ObjectInfo
  error : Option String
deriving DecidableEq, Repr

/-- Serde struct `DbusAnnotation` (lines 131-137): one annotation element. -/
structure DbusAnnot where
  name : String
  value : String
deriving DecidableEq, Repr

/-- Serde struct `DbusArg` (lines 121-129). -/
structure DbusArg where
  name : Option String
  type_name : String
  direction : Option String
deriving DecidableEq, Repr

/-- Serde struct `DbusMethod` (lines 89-97). -/
structure DbusMethod where
  name : String
  arguments : List DbusArg
  annots : List DbusAnnot
deriving DecidableEq, Repr

/-- Serde struct `DbusProperty` (lines 99-109). -/
structure DbusProperty where
  name : String
  type_name : String
  access : String
  annots : List DbusAnnot
deriving DecidableEq, Repr

/-- Serde struct `DbusSignal` (lines 111-119). -/
structure DbusSignal where
  name : String
  arguments : List DbusArg
  annots : List DbusAnnot
deriving DecidableEq, Repr

/-- Serde struct `DbusInterface` (lines 75-87). -/
structure DbusInterface where
  name : String
  methods : List DbusMethod
  properties : List DbusProperty
  signals : List DbusSignal
  annots : List DbusAnnot
deriving DecidableEq, Repr

/-- Serde struct `DbusChildNode` (lines 139-143). -/
structure DbusChildNode where
  name : String
deriving DecidableEq, Repr

/-- Serde struct `DbusNode` (lines 67-73): a deserialized schema document. -/
structure DbusNode where
  interfaces : List DbusInterface
  child_nodes : List DbusChildNode
deriving DecidableEq, Repr

/-- Model of Rust `str::starts_with(char)` on the character sequence. -/
def starts_with_char (s : String) (c : Char) : Bool :=
  match s.data with
  | [] => false
  | d :: _ => d == c

/-- Model of Rust `str::starts_with(&str)` on the character sequence. -/
def starts_with_str (s pre : String) : Bool :=
  pre.data.isPrefixOf s.data

/-- Auxiliary: does `pat` occur as a contiguous sublist of `hay`? -/
def contains_list (pat : List Char) : List Char → Bool
  | [] => pat.isEmpty
  | c :: rest => pat.isPrefixOf (c :: rest) || contains_list pat rest

/-- Model of Rust `str::contains(&str)`: case-sensitive substring test. -/
def str_contains (hay pat : String) : Bool :=
  contains_list pat.data hay.data

/-- The external collaborators of the core, passed in explicitly:
the quick-xml deserializer and the three bus transport calls used by
`dbus_introspection.rs` (Introspect, ListNames, GetNameOwner). -/
structure BusEnv where
  parseXml : String → Except String DbusNode
  call : String → String → Except String String
  listNames : Except String (List String)
  getNameOwner : String → Except String String

/-- The diagnostic message built at lines 342-348 when deserialization of a
schema document fails. -/
def parse_error_msg (service_name object_path e : String) : String :=
  "Failed to parse D-Bus introspection XML for " ++ service_name ++ ":" ++
    object_path ++ ": " ++ e

/-- Lines 338-341: a failed parse is logged verbosely only for services
outside the trusted `org.freedesktop.` namespace.  This only gates a
`debug!` side effect; it is modelled so claims can mention it. -/
def logs_failed_parse (service_name : String) : Bool :=
  !(starts_with_str service_name "org.freedesktop.")

/-- Conversion of one argument element (lines 396-401 and 442-447). -/
def convert_arg (a : DbusArg) : ArgumentInfo :=
  { name := a.name, type_name := a.type_name, direction := a.direction,
    description := none }

/-- The `for annotation in .. { if name == key { set; break } }` loops
(lines 369-375, 386-392, 432-438): first matching annotation wins. -/
def find_description (l : List DbusAnnot) : Option String :=
  (l.find? (fun a => a.name == "org.freedesktop.DBus.Description")).map
    (fun a => a.value)

/-- Conversion of one method element (lines 378-411): arguments are
partitioned by direction, pushed in document order. -/
def convert_method (m : DbusMethod) : MethodInfo :=
  let base : MethodInfo :=
    { name := m.name, arguments := [], return_values := [],
      description := find_description m.annots }
  m.arguments.foldl
    (fun acc a =>
      if a.direction = some "out" then
        { acc with return_values := acc.return_values ++ [convert_arg a] }
      else
        { acc with arguments := acc.arguments ++ [convert_arg a] })
    base

/-- Conversion of one property element (lines 414-422). -/
def convert_property (p : DbusProperty) : PropertyInfo :=
  { name := p.name, type_name := p.type_name, access := p.access,
    description := none }

/-- Conversion of one signal element (lines 425-452): all arguments are kept
in one sequence, direction tag retained. -/
def convert_signal (s : DbusSignal) : SignalInfo :=
  let base : SignalInfo :=
    { name := s.name, arguments := [], description := find_description s.annots }
  s.arguments.foldl
    (fun acc a => { acc with arguments := acc.arguments ++ [convert_arg a] })
    base

/-- Conversion of one interface element (lines 360-455). -/
def convert_interface (i : DbusInterface) : InterfaceInfo :=
  let base : InterfaceInfo :=
    { name := i.name, methods := [], properties := [], signals := [],
      description := find_description i.annots }
  let withM := i.methods.foldl
    (fun acc m => { acc with methods := acc.methods ++ [convert_method m] }) base
  let withP := i.properties.foldl
    (fun acc p => { acc with properties := acc.properties ++ [convert_property p] })
    withM
  i.signals.foldl
    (fun acc s => { acc with signals := acc.signals ++ [convert_signal s] }) withP

/-- `parse_introspection_xml_serde` (lines 323-458): deserialize, then convert
interfaces and extract child-node names.  The quick-xml deserializer is the
explicit `parseXml` argument. -/
def parse_introspection_xml_serde (parseXml : String → Except String DbusNode)
    (xml service_name object_path : String) :
    Except String (List InterfaceInfo × List String) :=
  match parseXml xml with
  | .error e => .error (parse_error_msg service_name object_path e)
  | .ok dbus_node =>
      .ok (dbus_node.interfaces.foldl
             (fun acc i => acc ++ [convert_interface i]) [],
           dbus_node.child_nodes.foldl (fun acc c => acc ++ [c.name]) [])

/-- `introspect_object` (lines 264-313): one reflection call, classified. -/
def introspect_object (env : BusEnv) (service_name object_path : String) :
    Option ObjectInfo :=
  match env.call service_name object_path with
  | .ok xml =>
      match parse_introspection_xml_serde env.parseXml xml service_name object_path with
      | .ok (interfaces, child_nodes) =>
          some { path := object_path, interfaces := interfaces, error := none,
                 child_nodes := child_nodes }
      | .error e =>
          some { path := object_path, interfaces := [],
                 error := some ("XML parsing failed: " ++ e), child_nodes := [] }
  | .error e =>
      let error_msg :=
        if str_contains e "org.freedesktop.DBus.Error.AccessDenied" then
          "Access denied - not authorized to introspect this object"
        else if str_contains e "org.freedesktop.DBus.Error.UnknownMethod" then
          "Object does not support introspection"
        else
          "Introspection failed: " ++ e
      some { path := object_path, interfaces := [], error := some error_msg,
             child_nodes := [] }

/-- Child path join of lines 233-237. -/
def child_path (parent child : String) : String :=
  if parent = "/" then "/" ++ child else parent ++ "/" ++ child

/-- One loop turn's child expansion (lines 231-243): each advertised child
name is introspected (recorded in the ghost trace) and the resulting record,
when present, is pushed onto the exploration stack (head = top). -/
def explore_step (env : BusEnv) (service_name : String) (current : ObjectInfo)
    (rest : List ObjectInfo) (trace : List String) :
    List ObjectInfo × List String :=
  current.child_nodes.foldl
    (fun (acc : List ObjectInfo × List String) child =>
      let p := child_path current.path child
      match introspect_object env service_name p with
      | some child_obj => (child_obj :: acc.1, acc.2 ++ [p])
      | none => (acc.1, acc.2 ++ [p]))
    (rest, trace)

/-- The `while let Some(current_object) = objects_to_explore.pop()` loop of
`analyze_service` (lines 230-246), with fuel and a ghost introspection
trace.  The list head is the top of the Rust `Vec` stack. -/
def explore (env : BusEnv) (service_name : String) :
    Nat → List ObjectInfo → List ObjectInfo → List String →
    Option (List ObjectInfo × List String)
  | _, [], objects, trace => some (objects, trace)
  | 0, _ :: _, _, _ => none
  | fuel + 1, current :: rest, objects, trace =>
      explore env service_name fuel
        (explore_step env service_name current rest trace).1
        (objects ++ [current])
        (explore_step env service_name current rest trace).2

/-- Owner lookup at lines 213-219: `if let Ok((owner,)) = .. GetNameOwner`. -/
def owner_of (env : BusEnv) (service_name : String) : Option String :=
  match env.getNameOwner service_name with
  | .ok o => some o
  | .error _ => none

/-- Post-condition of lines 256-259: an empty object sequence with no error
gets a synthesized explanatory error. -/
def finalize (service_info : ServiceInfo) : ServiceInfo :=
  if service_info.objects.isEmpty && service_info.error.isNone then
    { service_info with
      error := some "No accessible objects found or service not authorized" }
  else service_info

/-- `analyze_service` (lines 199-262), with ghost trace of introspected
paths.  `none` means the walk did not finish within `fuel` loop turns. -/
def analyze_serviceT (env : BusEnv) (service_name : String) (fuel : Nat) :
    Option (ServiceInfo × List String) :=
  match introspect_object env service_name "/" with
  | some root_obj =>
      if root_obj.error = none then
        match explore env service_name fuel [root_obj] [] ["/"] with
        | some (objects, trace) =>
            some (finalize { name := service_name,
                             owner := owner_of env service_name,
                             objects := objects, error := none }, trace)
        | none => none
      else
        some (finalize { name := service_name,
                         owner := owner_of env service_name,
                         objects := [root_obj], error := none }, ["/"])
  | none =>
      some (finalize { name := service_name,
                       owner := owner_of env service_name, objects := [],
                       error := some "Failed to attempt root introspection" },
            ["/"])

/-- `analyze_service` proper: the ServiceInfo component. -/
def analyze_service (env : BusEnv) (service_name : String) (fuel : Nat) :
    Option ServiceInfo :=
  (analyze_serviceT env service_name fuel).map Prod.fst

/-- Whether the object-graph walk of a service finishes with some amount of
fuel. -/
def walk_terminates (env : BusEnv) (service_name : String) : Prop :=
  ∃ fuel, (analyze_service env service_name fuel).isSome

/-- `get_service_names_only` (lines 145-165): public names, sorted.  Rust
`Vec::sort` is a stable lexicographic sort, modelled by `insertionSort`. -/
def get_service_names_only (env : BusEnv) : Except String (List String) :=
  match env.listNames with
  | .error e => .error ("Failed to list D-Bus names: " ++ e)
  | .ok names =>
      .ok ((names.filter (fun name => !(starts_with_char name ':'))).insertionSort
             (fun a b => a ≤ b))

/-- The name filter of `discover_services` (lines 180-189): drop private
names, keep names containing the filter pattern as a substring. -/
def surviving_names (names : List String) (filt : Option String) : List String :=
  names.filter (fun name =>
    !(starts_with_char name ':') &&
      (match filt with
       | some pat => str_contains name pat
       | none => true))

/-- The per-name `analyze_service` loop of lines 180-193, sequential. -/
def analyze_all (env : BusEnv) (fuel : Nat) :
    List String → Option (List ServiceInfo)
  | [] => some []
  | n :: rest =>
      match analyze_service env n fuel, analyze_all env fuel rest with
      | some r, some rs => some (r :: rs)
      | _, _ => none

/-- The `sort_by(|a, b| a.name.cmp(&b.name))` comparison of line 195. -/
def service_le (a b : ServiceInfo) : Prop :=
  a.name ≤ b.name

instance : DecidableRel service_le :=
  fun a b => inferInstanceAs (Decidable (a.name ≤ b.name))

instance : IsTotal ServiceInfo service_le :=
  ⟨fun a b => le_total a.name b.name⟩

instance : IsTrans ServiceInfo service_le :=
  ⟨fun _ _ _ hab hbc => le_trans hab hbc⟩

/-- `discover_services` (lines 167-197): list names (fatal on fault), filter,
walk each surviving name, sort records by service name (stable sort,
modelled by `insertionSort`). -/
def discover_services (env : BusEnv) (filt : Option String) (fuel : Nat) :
    Option (Except String (List ServiceInfo)) :=
  match env.listNames with
  | .error e => some (.error ("Failed to list D-Bus names: " ++ e))
  | .ok names =>
      match analyze_all env fuel (surviving_names names filt) with
      | some services => some (.ok (services.insertionSort service_le))
      | none => none

/-! ## Structural lemmas about the schema conversion -/

theorem foldl_push_eq_map {α β : Type} (f : α → β) (l : List α) (init : List β) :
    l.foldl (fun acc x => acc ++ [f x]) init = init ++ l.map f := by
  induction l generalizing init with
  | nil => simp
  | cons x xs ih => simp [ih, List.append_assoc]

theorem interface_foldl_methods (l : List DbusMethod) (acc : InterfaceInfo) :
    l.foldl (fun acc m => { acc with methods := acc.methods ++ [convert_method m] })
        acc
      = { acc with methods := acc.methods ++ l.map convert_method } := by
  induction l generalizing acc with
  | nil => simp
  | cons m ms ih => cases acc; simp [ih, List.append_assoc]

theorem interface_foldl_properties (l : List DbusProperty) (acc : InterfaceInfo) :
    l.foldl
        (fun acc p => { acc with properties := acc.properties ++ [convert_property p] })
        acc
      = { acc with properties := acc.properties ++ l.map convert_property } := by
  induction l generalizing acc with
  | nil => simp
  | cons p ps ih => cases acc; simp [ih, List.append_assoc]

theorem interface_foldl_signals (l : List DbusSignal) (acc : InterfaceInfo) :
    l.foldl (fun acc s => { acc with signals := acc.signals ++ [convert_signal s] })
        acc
      = { acc with signals := acc.signals ++ l.map convert_signal } := by
  induction l generalizing acc with
  | nil => simp
  | cons s ss ih => cases acc; simp [ih, List.append_assoc]

theorem convert_interface_eq (i : DbusInterface) :
    convert_interface i =
      { name := i.name, methods := i.methods.map convert_method,
        properties := i.properties.map convert_property,
        signals := i.signals.map convert_signal,
        description := find_description i.annots } := by
  cases i
  simp [convert_interface, interface_foldl_methods, interface_foldl_properties,
    interface_foldl_signals]

theorem method_foldl_partition (l : List DbusArg) (acc : MethodInfo) :
    l.foldl
        (fun acc a =>
          if a.direction = some "out" then
            { acc with return_values := acc.return_values ++ [convert_arg a] }
          else
            { acc with arguments := acc.arguments ++ [convert_arg a] })
        acc
      = { acc with
          arguments := acc.arguments ++
            (l.filter (fun a => !(decide (a.direction = some "out")))).map
              convert_arg,
          return_values := acc.return_values ++
            (l.filter (fun a => decide (a.direction = some "out"))).map
              convert_arg } := by
  induction l generalizing acc with
  | nil => simp
  | cons a as ih =>
      cases acc
      by_cases h : a.direction = some "out" <;>
        simp [h, ih, List.filter_cons, List.append_assoc]

theorem convert_method_eq (m : DbusMethod) :
    convert_method m =
      { name := m.name,
        arguments :=
          (m.arguments.filter (fun a => !(decide (a.direction = some "out")))).map
            convert_arg,
        return_values :=
          (m.arguments.filter (fun a => decide (a.direction = some "out"))).map
            convert_arg,
        description := find_description m.annots } := by
  simp [convert_method, method_foldl_partition]

theorem signal_foldl_args (l : List DbusArg) (acc : SignalInfo) :
    l.foldl (fun acc a => { acc with arguments := acc.arguments ++ [convert_arg a] })
        acc
      = { acc with arguments := acc.arguments ++ l.map convert_arg } := by
  induction l generalizing acc with
  | nil => simp
  | cons a as ih => cases acc; simp [ih, List.append_assoc]

theorem convert_signal_eq (s : DbusSignal) :
    convert_signal s =
      { name := s.name, arguments := s.arguments.map convert_arg,
        description := find_description s.annots } := by
  cases s
  simp [convert_signal, signal_foldl_args]

theorem find_description_first (l1 l2 : List DbusAnnot) (d : DbusAnnot)
    (hd : d.name = "org.freedesktop.DBus.Description")
    (hl : ∀ a ∈ l1, a.name ≠ "org.freedesktop.DBus.Description") :
    find_description (l1 ++ d :: l2) = some d.value := by
  have h1 : l1.find? (fun a => a.name == "org.freedesktop.DBus.Description")
      = none := by
    rw [List.find?_eq_none]
    intro a ha
    simpa using hl a ha
  simp [find_description, List.find?_append, h1, hd]

theorem parse_ok_eq (parseXml : String → Except String DbusNode)
    (xml s p : String) (node : DbusNode) (h : parseXml xml = .ok node) :
    parse_introspection_xml_serde parseXml xml s p =
      .ok (node.interfaces.map convert_interface,
           node.child_nodes.map DbusChildNode.name) := by
  simp [parse_introspection_xml_serde, h, foldl_push_eq_map]

/-! ## Claims about the schema parser -/

/-- C4: For every malformed schema document the parser returns a fault built
by one fixed formula carrying the (service, path) context and the underlying
deserializer message, and produces no interface records; the fault value
follows the same formula whether or not the service name is in the trusted
`org.freedesktop.` namespace whose failed-parse diagnostics are suppressed
from verbose logging. -/
theorem parse_fault_on_malformed (parseXml : String → Except String DbusNode)
    (xml e : String) (h : parseXml xml = .error e) :
    (∀ s p, parse_introspection_xml_serde parseXml xml s p
        = .error (parse_error_msg s p e)
      ∧ ∀ res, parse_introspection_xml_serde parseXml xml s p ≠ .ok res)
    ∧ (∀ s1 s2 p, logs_failed_parse s1 = true → logs_failed_parse s2 = false →
        parse_introspection_xml_serde parseXml xml s1 p
            = .error (parse_error_msg s1 p e)
        ∧ parse_introspection_xml_serde parseXml xml s2 p
            = .error (parse_error_msg s2 p e)) := by
  have key : ∀ s p, parse_introspection_xml_serde parseXml xml s p
      = .error (parse_error_msg s p e) := by
    intro s p
    simp [parse_introspection_xml_serde, h]
  refine ⟨fun s p => ⟨key s p, fun res hres => ?_⟩,
    fun s1 s2 p _ _ => ⟨key s1 p, key s2 p⟩⟩
  rw [key s p] at hres
  exact Except.noConfusion hres

/-- A deserializer that always fails, used to witness C4. -/
def failing_parse_xml : String → Except String DbusNode :=
  fun _ => .error "syntax error"

/-- Witness for C4 at a concrete malformed document, one untrusted and one
trusted (`org.freedesktop.`) service name. -/
theorem parse_fault_on_malformed_witness :
    parse_introspection_xml_serde failing_parse_xml "<node" "com.example.Foo" "/"
        = .error (parse_error_msg "com.example.Foo" "/" "syntax error")
    ∧ parse_introspection_xml_serde failing_parse_xml "<node"
          "org.freedesktop.DBus" "/"
        = .error (parse_error_msg "org.freedesktop.DBus" "/" "syntax error") :=
  (parse_fault_on_malformed failing_parse_xml "<node" "syntax error" rfl).2
    "com.example.Foo" "org.freedesktop.DBus" "/" (by decide) (by decide)

/-- C5: method arguments are partitioned by direction: exactly the
arguments explicitly marked "out" become return values, in order, and all
others (marked "in", any other value, or unmarked) become input arguments,
in order; the concrete two-argument example parses to one input "x:s" and
one return value "y:i". -/
theorem method_arguments_partitioned (m : DbusMethod) :
    (convert_method m).arguments =
        (m.arguments.filter (fun a => !(decide (a.direction = some "out")))).map
          convert_arg
    ∧ (convert_method m).return_values =
        (m.arguments.filter (fun a => decide (a.direction = some "out"))).map
          convert_arg
    ∧ convert_method
        { name := "M",
          arguments :=
            [{ name := some "x", type_name := "s", direction := some "in" },
             { name := some "y", type_name := "i", direction := some "out" }],
          annots := [] }
      = { name := "M",
          arguments := [{ name := some "x", type_name := "s",
                          direction := some "in", description := none }],
          return_values := [{ name := some "y", type_name := "i",
                              direction := some "out", description := none }],
          description := none } := by
  refine ⟨?_, ?_, by decide⟩
  · rw [convert_method_eq]
  · rw [convert_method_eq]

/-- C6: conversion of a well-formed interface keeps exactly one method,
property, and signal record per schema element, and the description of an
interface, method, or signal is the value of the first
`org.freedesktop.DBus.Description` annotation in document order. -/
theorem interface_counts_and_description (i : DbusInterface)
    (l1 l2 : List DbusAnnot) (d : DbusAnnot)
    (hi : i.annots = l1 ++ d :: l2)
    (hd : d.name = "org.freedesktop.DBus.Description")
    (hl : ∀ a ∈ l1, a.name ≠ "org.freedesktop.DBus.Description") :
    (convert_interface i).methods.length = i.methods.length
    ∧ (convert_interface i).properties.length = i.properties.length
    ∧ (convert_interface i).signals.length = i.signals.length
    ∧ (convert_interface i).description = some d.value
    ∧ (∀ m : DbusMethod, m.annots = l1 ++ d :: l2 →
        (convert_method m).description = some d.value)
    ∧ (∀ s : DbusSignal, s.annots = l1 ++ d :: l2 →
        (convert_signal s).description = some d.value) := by
  have hfd : find_description (l1 ++ d :: l2) = some d.value :=
    find_description_first l1 l2 d hd hl
  refine ⟨?_, ?_, ?_, ?_, ?_, ?_⟩
  · rw [convert_interface_eq]; exact List.length_map _ _
  · rw [convert_interface_eq]; exact List.length_map _ _
  · rw [convert_interface_eq]; exact List.length_map _ _
  · rw [convert_interface_eq]; simpa [hi] using hfd
  · intro m hm; rw [convert_method_eq]; simpa [hm] using hfd
  · intro s hs; rw [convert_signal_eq]; simpa [hs] using hfd

/-- Witness for C6: a concrete interface with 2 methods, 1 property, 1
signal, a non-matching annotation first, then two description annotations
(the first of the duplicates wins). -/
theorem interface_counts_and_description_witness :
    (convert_interface
        { name := "com.example.If",
          methods := [{ name := "M1", arguments := [], annots := [] },
                      { name := "M2", arguments := [], annots := [] }],
          properties := [{ name := "P", type_name := "s", access := "read",
                           annots := [] }],
          signals := [{ name := "Sig", arguments := [], annots := [] }],
          annots := [{ name := "other.Key", value := "o" },
                     { name := "org.freedesktop.DBus.Description", value := "v1" },
                     { name := "org.freedesktop.DBus.Description", value := "v2" }] }).methods.length
        = 2
    ∧ (convert_interface
        { name := "com.example.If",
          methods := [{ name := "M1", arguments := [], annots := [] },
                      { name := "M2", arguments := [], annots := [] }],
          properties := [{ name := "P", type_name := "s", access := "read",
                           annots := [] }],
          signals := [{ name := "Sig", arguments := [], annots := [] }],
          annots := [{ name := "other.Key", value := "o" },
                     { name := "org.freedesktop.DBus.Description", value := "v1" },
                     { name := "org.freedesktop.DBus.Description", value := "v2" }] }).description
        = some "v1" := by
  have h := interface_counts_and_description
    { name := "com.example.If",
      methods := [{ name := "M1", arguments := [], annots := [] },
                  { name := "M2", arguments := [], annots := [] }],
      properties := [{ name := "P", type_name := "s", access := "read",
                       annots := [] }],
      signals := [{ name := "Sig", arguments := [], annots := [] }],
      annots := [{ name := "other.Key", value := "o" },
                 { name := "org.freedesktop.DBus.Description", value := "v1" },
                 { name := "org.freedesktop.DBus.Description", value := "v2" }] }
    [{ name := "other.Key", value := "o" }]
    [{ name := "org.freedesktop.DBus.Description", value := "v2" }]
    { name := "org.freedesktop.DBus.Description", value := "v1" }
    rfl rfl (by decide)
  exact ⟨h.1, h.2.2.2.1⟩

/-! ## Claims about the introspection fetcher -/

theorem introspect_object_total (env : BusEnv) (s p : String) :
    ∃ o, introspect_object env s p = some o := by
  unfold introspect_object
  rcases env.call s p with e | xml
  · exact ⟨_, rfl⟩
  · rcases h : parse_introspection_xml_serde env.parseXml xml s p with e | ⟨ifs, chs⟩
    · simp [h]
    · simp [h]

/-- C3: a fetched object record with an error has no interfaces and no child
nodes (so the walker cannot expand through it); one without an error carries
exactly the parser's decoding of the fetched schema text. -/
theorem introspect_object_error_contract (env : BusEnv) (s p : String)
    (o : ObjectInfo) (h : introspect_object env s p = some o) :
    (o.error.isSome = true → o.interfaces = [] ∧ o.child_nodes = [])
    ∧ (o.error = none → ∃ xml, env.call s p = .ok xml ∧
        parse_introspection_xml_serde env.parseXml xml s p
          = .ok (o.interfaces, o.child_nodes)) := by
  unfold introspect_object at h
  rcases hc : env.call s p with e | xml <;> simp only [hc] at h
  · simp only [Option.some.injEq] at h
    subst h
    refine ⟨fun _ => ⟨rfl, rfl⟩, fun hn => ?_⟩
    simp at hn
  · rcases hp : parse_introspection_xml_serde env.parseXml xml s p
        with e | ⟨ifs, chs⟩ <;> simp only [hp, Option.some.injEq] at h <;>
      subst h
    · refine ⟨fun _ => ⟨rfl, rfl⟩, fun hn => ?_⟩
      simp at hn
    · exact ⟨fun hs => by simp at hs, fun _ => ⟨xml, rfl, hp⟩⟩

/-- A bus whose every call fails with a generic fault, used as witness
input. -/
def failing_call_env : BusEnv :=
  { parseXml := failing_parse_xml,
    call := fun _ _ => .error "boom",
    listNames := .ok [],
    getNameOwner := fun _ => .error "no owner" }

/-- Witness for C3: a concrete failed fetch yields a record with an error,
no interfaces and no child nodes. -/
theorem introspect_object_error_contract_witness :
    ({ path := "/", interfaces := [],
       error := some "Introspection failed: boom",
       child_nodes := [] } : ObjectInfo).interfaces = []
    ∧ ({ path := "/", interfaces := [],
         error := some "Introspection failed: boom",
         child_nodes := [] } : ObjectInfo).child_nodes = [] :=
  (introspect_object_error_contract failing_call_env "S" "/"
    { path := "/", interfaces := [], error := some "Introspection failed: boom",
      child_nodes := [] } (by decide)).1 rfl

/-! ## Structural lemmas about the object-graph walk -/

theorem explore_objects_extend (env : BusEnv) (svc : String) :
    ∀ (fuel : Nat) (stack objects : List ObjectInfo) (trace : List String)
      (res : List ObjectInfo × List String),
      explore env svc fuel stack objects trace = some res →
      ∃ rest, res.1 = objects ++ rest ∧ (stack ≠ [] → rest ≠ []) := by
  intro fuel
  induction fuel with
  | zero =>
      intro stack objects trace res h
      match stack, h with
      | [], h =>
          have e := Option.some.inj h
          exact ⟨[], by rw [← e]; simp, fun hc => absurd rfl hc⟩
      | a :: l, h => exact Option.noConfusion h
  | succ n ih =>
      intro stack objects trace res h
      match stack, h with
      | [], h =>
          have e := Option.some.inj h
          exact ⟨[], by rw [← e]; simp, fun hc => absurd rfl hc⟩
      | current :: rest0, h =>
          have h' : explore env svc n
              (explore_step env svc current rest0 trace).1
              (objects ++ [current])
              (explore_step env svc current rest0 trace).2 = some res := h
          obtain ⟨r2, hr2, _⟩ := ih _ _ _ _ h'
          refine ⟨current :: r2, ?_, fun _ => by simp⟩
          rw [hr2]
          simp

theorem finalize_name (i : ServiceInfo) : (finalize i).name = i.name := by
  unfold finalize
  split <;> rfl

theorem finalize_objects (i : ServiceInfo) : (finalize i).objects = i.objects := by
  unfold finalize
  split <;> rfl

theorem finalize_error_cases (i : ServiceInfo) :
    (finalize i).error = i.error ∨
      (finalize i).error
        = some "No accessible objects found or service not authorized" := by
  unfold finalize
  split
  · exact .inr rfl
  · exact .inl rfl

theorem finalize_no_silent_empty (i : ServiceInfo) :
    ¬ ((finalize i).objects = [] ∧ (finalize i).error = none) := by
  rintro ⟨h1, h2⟩
  rw [finalize_objects] at h1
  unfold finalize at h2
  rcases hcond : (i.objects.isEmpty && i.error.isNone) with _ | _
  · rw [if_neg (by simp [hcond])] at h2
    simp [h1, h2] at hcond
  · rw [if_pos (by simp [hcond])] at h2
    simp at h2

theorem analyze_serviceT_cases (env : BusEnv) (svc : String) (fuel : Nat)
    (r : ServiceInfo) (tr : List String)
    (h : analyze_serviceT env svc fuel = some (r, tr)) :
    ∃ root, introspect_object env svc "/" = some root ∧
      ((root.error = none ∧ ∃ objects,
          explore env svc fuel [root] [] ["/"] = some (objects, tr) ∧
          r = finalize { name := svc, owner := owner_of env svc,
                         objects := objects, error := none })
       ∨ (root.error ≠ none ∧ tr = ["/"] ∧
          r = finalize { name := svc, owner := owner_of env svc,
                         objects := [root], error := none })) := by
  obtain ⟨root, hroot⟩ := introspect_object_total env svc "/"
  unfold analyze_serviceT at h
  simp only [hroot] at h
  by_cases he : root.error = none
  · rw [if_pos he] at h
    rcases hex : explore env svc fuel [root] [] ["/"] with _ | ⟨objs, tr2⟩ <;>
      simp only [hex] at h
    · exact Option.noConfusion h
    · have e := Option.some.inj h
      refine ⟨root, hroot, .inl ⟨he, objs, ?_, (congrArg Prod.fst e).symm⟩⟩
      rw [hex, show tr2 = tr from congrArg Prod.snd e]
  · rw [if_neg he] at h
    have e := Option.some.inj h
    exact ⟨root, hroot,
      .inr ⟨he, (congrArg Prod.snd e).symm, (congrArg Prod.fst e).symm⟩⟩

/-! ## Claims about the object-graph walker -/

/-- C2: when the root introspection yields a record carrying an error, the
walk stops at once: the ServiceRecord holds exactly that one root record,
and the introspection trace is just "/" (no other path is introspected). -/
theorem analyze_service_root_error (env : BusEnv) (svc : String) (fuel : Nat)
    (root : ObjectInfo) (e : String)
    (hroot : introspect_object env svc "/" = some root)
    (herr : root.error = some e) :
    analyze_serviceT env svc fuel
      = some ({ name := svc, owner := owner_of env svc, objects := [root],
                error := none }, ["/"]) := by
  unfold analyze_serviceT
  simp only [hroot]
  rw [if_neg (by simp [herr])]
  unfold finalize
  rw [if_neg (by simp)]

/-- Witness for C2: a bus whose every call fails produces a one-record
ServiceRecord with the classified root error and a one-entry trace. -/
theorem analyze_service_root_error_witness :
    analyze_serviceT failing_call_env "S" 7
      = some ({ name := "S", owner := none,
                objects := [{ path := "/", interfaces := [],
                              error := some "Introspection failed: boom",
                              child_nodes := [] }],
                error := none }, ["/"]) :=
  analyze_service_root_error failing_call_env "S" 7
    { path := "/", interfaces := [], error := some "Introspection failed: boom",
      child_nodes := [] } "Introspection failed: boom" (by decide) rfl

/-- C9: a ServiceRecord returned by the walk never has both an empty object
sequence and an unset top-level error. -/
theorem analyze_service_no_silent_empty (env : BusEnv) (svc : String)
    (fuel : Nat) (r : ServiceInfo)
    (h : analyze_service env svc fuel = some r) :
    ¬ (r.objects = [] ∧ r.error = none) := by
  unfold analyze_service at h
  rcases ht : analyze_serviceT env svc fuel with _ | ⟨r2, tr⟩ <;> rw [ht] at h
  · simp at h
  · have hr : r2 = r := by simpa using h
    obtain ⟨root, _, hcase⟩ := analyze_serviceT_cases env svc fuel r2 tr ht
    rcases hcase with ⟨_, objs, _, hfin⟩ | ⟨_, _, hfin⟩
    · rw [← hr, hfin]
      exact finalize_no_silent_empty _
    · rw [← hr, hfin]
      exact finalize_no_silent_empty _

/-- Witness for C9 at the all-failing bus. -/
theorem analyze_service_no_silent_empty_witness :
    ¬ (({ name := "S", owner := none,
          objects := [{ path := "/", interfaces := [],
                        error := some "Introspection failed: boom",
                        child_nodes := [] }],
          error := none } : ServiceInfo).objects = []
        ∧ ({ name := "S", owner := none,
             objects := [{ path := "/", interfaces := [],
                           error := some "Introspection failed: boom",
                           child_nodes := [] }],
             error := none } : ServiceInfo).error = none) :=
  analyze_service_no_silent_empty failing_call_env "S" 7
    { name := "S", owner := none,
      objects := [{ path := "/", interfaces := [],
                    error := some "Introspection failed: boom",
                    child_nodes := [] }],
      error := none } rfl

/-- C10: `introspect_object` returns a record for every bus outcome, so the
fallback branch of `analyze_service` (the "Failed to attempt root
introspection" top-level error) is unreachable and every finished walk
returns at least one ObjectRecord. -/
theorem introspect_total_and_walk_nonempty (env : BusEnv) (s p svc : String)
    (fuel : Nat) :
    (∃ o, introspect_object env s p = some o)
    ∧ ∀ r, analyze_service env svc fuel = some r →
        r.objects ≠ [] ∧
          r.error ≠ some "Failed to attempt root introspection" := by
  refine ⟨introspect_object_total env s p, fun r h => ?_⟩
  unfold analyze_service at h
  rcases ht : analyze_serviceT env svc fuel with _ | ⟨r2, tr⟩ <;> rw [ht] at h
  · simp at h
  · have hr : r2 = r := by simpa using h
    obtain ⟨root, _, hcase⟩ := analyze_serviceT_cases env svc fuel r2 tr ht
    rcases hcase with ⟨_, objs, hex, hfin⟩ | ⟨_, _, hfin⟩
    · obtain ⟨rest, hrest, hne⟩ :=
        explore_objects_extend env svc fuel [root] [] ["/"] (objs, tr) hex
      have hobjs : objs ≠ [] := by
        have hrest2 : objs = rest := by simpa using hrest
        rw [hrest2]
        exact hne (by simp)
      constructor
      · rw [← hr, hfin, finalize_objects]
        exact hobjs
      · rw [← hr, hfin]
        rcases finalize_error_cases
            { name := svc, owner := owner_of env svc, objects := objs,
              error := none } with hc | hc <;> rw [hc] <;> simp
    · constructor
      · rw [← hr, hfin, finalize_objects]
        simp
      · rw [← hr, hfin]
        rcases finalize_error_cases
            { name := svc, owner := owner_of env svc, objects := [root],
              error := none } with hc | hc <;> rw [hc] <;> simp

/-- Witness for C10 at the all-failing bus. -/
theorem introspect_total_and_walk_nonempty_witness :
    ({ name := "S", owner := none,
       objects := [{ path := "/", interfaces := [],
                     error := some "Introspection failed: boom",
                     child_nodes := [] }],
       error := none } : ServiceInfo).objects ≠ []
    ∧ ({ name := "S", owner := none,
         objects := [{ path := "/", interfaces := [],
                       error := some "Introspection failed: boom",
                       child_nodes := [] }],
         error := none } : ServiceInfo).error
        ≠ some "Failed to attempt root introspection" :=
  (introspect_total_and_walk_nonempty failing_call_env "X" "/x" "S" 7).2
    { name := "S", owner := none,
      objects := [{ path := "/", interfaces := [],
                    error := some "Introspection failed: boom",
                    child_nodes := [] }],
      error := none } rfl

/-! ## The walk keeps no visited-path set: concrete topologies -/

/-- A bus presenting the declared cycle of the spec example: "/" advertises
child "a", "/a" advertises child "b", "/a/b" advertises child "a"; any
other path does not exist.  The Introspect call returns the requested path
as the schema text, and the deserializer maps that text to the node. -/
def cycle_env : BusEnv :=
  { parseXml := fun xml =>
      if xml = "/" then .ok { interfaces := [], child_nodes := [{ name := "a" }] }
      else if xml = "/a" then
        .ok { interfaces := [], child_nodes := [{ name := "b" }] }
      else if xml = "/a/b" then
        .ok { interfaces := [], child_nodes := [{ name := "a" }] }
      else .error "no parse",
    call := fun _ p =>
      if p = "/" ∨ p = "/a" ∨ p = "/a/b" then .ok p
      else .error "org.freedesktop.DBus.Error.UnknownMethod: no such object",
    listNames := .ok [],
    getNameOwner := fun _ => .error "none" }

/-- A bus whose root advertises the same child name "b" twice; "/b" exists
with no children. -/
def dup_child_env : BusEnv :=
  { parseXml := fun xml =>
      if xml = "/" then
        .ok { interfaces := [], child_nodes := [{ name := "b" }, { name := "b" }] }
      else if xml = "/b" then .ok { interfaces := [], child_nodes := [] }
      else .error "no parse",
    call := fun _ p => if p = "/" ∨ p = "/b" then .ok p else .error "gone",
    listNames := .ok [],
    getNameOwner := fun _ => .error "none" }

/-- A bus whose root advertises a single child with the empty name, so the
computed child path is again "/". -/
def empty_child_env : BusEnv :=
  { parseXml := fun _ => .ok { interfaces := [], child_nodes := [{ name := "" }] },
    call := fun _ _ => .ok "x",
    listNames := .ok [],
    getNameOwner := fun _ => .error "none" }

/-- The root record the empty-child bus yields at every path. -/
def empty_child_root : ObjectInfo :=
  { path := "/", interfaces := [], error := none, child_nodes := [""] }

theorem explore_empty_child_none :
    ∀ (fuel : Nat) (objects : List ObjectInfo) (trace : List String),
      explore empty_child_env "S" fuel [empty_child_root] objects trace
        = none := by
  intro fuel
  induction fuel with
  | zero => intro objects trace; rfl
  | succ n ih =>
      intro objects trace
      have hstep :
          explore empty_child_env "S" (n + 1) [empty_child_root] objects trace
            = explore empty_child_env "S" n [empty_child_root]
                (objects ++ [empty_child_root]) (trace ++ ["/"]) := rfl
      rw [hstep]
      exact ih _ _

theorem analyze_empty_child_none (fuel : Nat) :
    analyze_service empty_child_env "S" fuel = none := by
  have h1 : introspect_object empty_child_env "S" "/" = some empty_child_root :=
    rfl
  have h2 : explore empty_child_env "S" fuel
      [{ path := "/", interfaces := [], error := none, child_nodes := [""] }]
      [] ["/"] = none :=
    explore_empty_child_none fuel [] ["/"]
  simp [analyze_service, analyze_serviceT, h1, h2, empty_child_root]

/-- C1 counterexample: the walk maintains no visited-path set.  At the
duplicate-child bus the path "/b" is introspected twice (the trace records
it twice) and recorded twice, so ObjectRecord paths are not unique; and at
the empty-child-name bus the walk never terminates: no amount of fuel
finishes it. -/
theorem analyze_service_no_visited_set :
    ((analyze_serviceT dup_child_env "S" 5).map
        (fun x => (x.1.objects.map ObjectInfo.path, x.2)))
      = some (["/", "/b", "/b"], ["/", "/b", "/b"])
    ∧ ¬ (["/", "/b", "/b"] : List String).Nodup
    ∧ ¬ walk_terminates empty_child_env "S" := by
  refine ⟨rfl, by decide, ?_⟩
  rintro ⟨fuel, hf⟩
  rw [analyze_empty_child_none fuel] at hf
  simp at hf

/-- C1 amended: for the declared-cycle example ("/" advertises "a", "/a"
advertises "b", "/a/b" advertises "a") the walk terminates and visits "/a"
exactly once — each child path strictly extends its parent, so the cycle
yields the fresh path "/a/b/a" instead of a revisit — and all recorded
paths in that run are distinct. -/
theorem analyze_service_cycle_example :
    ((analyze_serviceT cycle_env "S" 10).map
        (fun x => (x.1.objects.map ObjectInfo.path, x.2)))
      = some (["/", "/a", "/a/b", "/a/b/a"], ["/", "/a", "/a/b", "/a/b/a"])
    ∧ (["/", "/a", "/a/b", "/a/b/a"] : List String).count "/a" = 1
    ∧ (["/", "/a", "/a/b", "/a/b/a"] : List String).Nodup :=
  ⟨rfl, by decide, by decide⟩

/-! ## Claims about service discovery -/

theorem analyze_service_name (env : BusEnv) (n : String) (fuel : Nat)
    (r : ServiceInfo) (h : analyze_service env n fuel = some r) :
    r.name = n := by
  unfold analyze_service at h
  rcases ht : analyze_serviceT env n fuel with _ | ⟨r2, tr⟩ <;> rw [ht] at h
  · simp at h
  · have hr : r2 = r := by simpa using h
    obtain ⟨root, _, hcase⟩ := analyze_serviceT_cases env n fuel r2 tr ht
    rcases hcase with ⟨_, objs, _, hfin⟩ | ⟨_, _, hfin⟩ <;>
      rw [← hr, hfin, finalize_name]

theorem analyze_all_names (env : BusEnv) (fuel : Nat) :
    ∀ (ns : List String) (services : List ServiceInfo),
      analyze_all env fuel ns = some services →
      services.map ServiceInfo.name = ns
      ∧ ∀ r ∈ services, ∃ n ∈ ns, analyze_service env n fuel = some r := by
  intro ns
  induction ns with
  | nil =>
      intro services h
      cases h
      exact ⟨rfl, by simp⟩
  | cons n rest ih =>
      intro services h
      unfold analyze_all at h
      rcases ha : analyze_service env n fuel with _ | r
      · simp only [ha] at h
        exact Option.noConfusion h
      · simp only [ha] at h
        rcases hrest : analyze_all env fuel rest with _ | rs
        · simp only [hrest] at h
          exact Option.noConfusion h
        · simp only [hrest] at h
          have e := Option.some.inj h
          obtain ⟨h1, h2⟩ := ih rs hrest
          subst e
          refine ⟨?_, ?_⟩
          · simp [h1, analyze_service_name env n fuel r ha]
          · rintro x hx
            rcases List.mem_cons.mp hx with hx | hx
            · exact ⟨n, List.mem_cons_self _ _, hx ▸ ha⟩
            · obtain ⟨m, hm, hm2⟩ := h2 x hx
              exact ⟨m, List.mem_cons_of_mem _ hm, hm2⟩

/-- A bus whose ListNames reply repeats one public name, used to refute the
dedup part of the names-only listing claim. -/
def dup_names_env : BusEnv :=
  { parseXml := failing_parse_xml,
    call := fun _ _ => .error "boom",
    listNames := .ok ["a.b", "a.b"],
    getNameOwner := fun _ => .error "none" }

/-- C8 counterexample: `get_service_names_only` does not deduplicate — a
ListNames reply repeating one public name yields that name twice. -/
theorem get_service_names_only_not_dedup :
    get_service_names_only dup_names_env = .ok ["a.b", "a.b"]
    ∧ ¬ (["a.b", "a.b"] : List String).Nodup := by
  constructor
  · have hf : (["a.b", "a.b"] : List String).filter
        (fun n => !(starts_with_char n ':')) = ["a.b", "a.b"] := rfl
    show Except.ok ((["a.b", "a.b"].filter
        (fun n => !(starts_with_char n ':'))).insertionSort (fun a b => a ≤ b))
      = Except.ok ["a.b", "a.b"]
    rw [hf]
    simp [List.insertionSort, List.orderedInsert]
  · decide

/-- C8 amended: the names-only listing fails with the wrapped transport
fault exactly when ListNames fails; otherwise it returns exactly the public
(non-":"-prefixed) names, with multiplicity, lexicographically sorted. -/
theorem get_service_names_only_spec (env : BusEnv) :
    (∀ e, env.listNames = .error e →
        get_service_names_only env
          = .error ("Failed to list D-Bus names: " ++ e))
    ∧ ∀ names, env.listNames = .ok names →
        ∃ l, get_service_names_only env = .ok l
          ∧ l.Perm (names.filter (fun n => !(starts_with_char n ':')))
          ∧ l.Pairwise (fun a b : String => a ≤ b) := by
  constructor
  · intro e he
    unfold get_service_names_only
    simp only [he]
  · intro names hn
    unfold get_service_names_only
    simp only [hn]
    exact ⟨_, rfl, List.perm_insertionSort _ _, List.sorted_insertionSort _ _⟩

/-- A bus with one private and two public names, used to witness the
names-only listing claim. -/
def names_env : BusEnv :=
  { parseXml := failing_parse_xml,
    call := fun _ _ => .error "boom",
    listNames := .ok ["b.svc", "a.svc", ":1.9"],
    getNameOwner := fun _ => .error "none" }

/-- Witness for the amended C8 at a concrete ListNames reply. -/
theorem get_service_names_only_spec_witness :
    ∃ l, get_service_names_only names_env = .ok l
      ∧ l.Perm ((["b.svc", "a.svc", ":1.9"] : List String).filter
          (fun n => !(starts_with_char n ':')))
      ∧ l.Pairwise (fun a b : String => a ≤ b) :=
  (get_service_names_only_spec names_env).2 ["b.svc", "a.svc", ":1.9"] rfl

/-- C7: DiscoverAll fails as a whole exactly on a name-enumeration fault;
otherwise it walks exactly the surviving names (public names containing the
filter as a case-sensitive substring), producing one record per surviving
name — each obtained from the total per-service walk, so one service's
fault stays inside its record — and returns the records sorted by name. -/
theorem discover_services_spec (env : BusEnv) (filt : Option String)
    (fuel : Nat) :
    (∀ e, env.listNames = .error e →
        discover_services env filt fuel
          = some (.error ("Failed to list D-Bus names: " ++ e)))
    ∧ ∀ names services, env.listNames = .ok names →
        analyze_all env fuel (surviving_names names filt) = some services →
        ∃ l, discover_services env filt fuel = some (.ok l)
          ∧ l.Perm services
          ∧ l.Pairwise service_le
          ∧ (l.map ServiceInfo.name).Perm (surviving_names names filt)
          ∧ (∀ r ∈ l, ∃ n ∈ surviving_names names filt,
              analyze_service env n fuel = some r)
          ∧ ∀ n, n ∈ surviving_names names filt ↔
              n ∈ names ∧ ¬ starts_with_char n ':'
                ∧ ∀ pat, filt = some pat → str_contains n pat := by
  constructor
  · intro e he
    unfold discover_services
    simp only [he]
  · intro names services hn hs
    obtain ⟨hnames, hmem⟩ := analyze_all_names env fuel _ services hs
    refine ⟨services.insertionSort service_le, ?_, List.perm_insertionSort _ _,
      List.sorted_insertionSort _ _, ?_, ?_, ?_⟩
    · unfold discover_services
      simp only [hn, hs]
    · have hp : (services.insertionSort service_le).map ServiceInfo.name
          |>.Perm (services.map ServiceInfo.name) :=
        (List.perm_insertionSort _ _).map _
      rw [hnames] at hp
      exact hp
    · intro r hr
      exact hmem r ((List.perm_insertionSort service_le services).mem_iff.mp hr)
    · intro n
      rcases filt with _ | pat <;>
        simp [surviving_names, List.mem_filter, and_assoc]

/-- A bus with four names (one private, two matching "example") whose every
Introspect call fails, used to witness the discovery claim. -/
def example_filter_env : BusEnv :=
  { parseXml := failing_parse_xml,
    call := fun _ _ => .error "boom",
    listNames := .ok ["org.other.Bar", "com.example.Foo", ":1.5",
                      "net.example.Baz"],
    getNameOwner := fun _ => .error "none" }

/-- Witness for C7 at a concrete bus and the filter "example". -/
theorem discover_services_spec_witness :
    ∃ l, discover_services example_filter_env (some "example") 3
        = some (.ok l)
      ∧ l.Perm
          [{ name := "com.example.Foo", owner := none,
             objects := [{ path := "/", interfaces := [],
                           error := some "Introspection failed: boom",
                           child_nodes := [] }],
             error := none },
           { name := "net.example.Baz", owner := none,
             objects := [{ path := "/", interfaces := [],
                           error := some "Introspection failed: boom",
                           child_nodes := [] }],
             error := none }]
      ∧ l.Pairwise service_le
      ∧ (l.map ServiceInfo.name).Perm
          (surviving_names ["org.other.Bar", "com.example.Foo", ":1.5",
            "net.example.Baz"] (some "example"))
      ∧ (∀ r ∈ l, ∃ n ∈ surviving_names ["org.other.Bar", "com.example.Foo",
            ":1.5", "net.example.Baz"] (some "example"),
          analyze_service example_filter_env n 3 = some r)
      ∧ ∀ n, n ∈ surviving_names ["org.other.Bar", "com.example.Foo", ":1.5",
            "net.example.Baz"] (some "example") ↔
          n ∈ ["org.other.Bar", "com.example.Foo", ":1.5", "net.example.Baz"]
            ∧ ¬ starts_with_char n ':'
            ∧ ∀ pat, (some "example" : Option String) = some pat →
                str_contains n pat :=
  (discover_services_spec example_filter_env (some "example") 3).2
    ["org.other.Bar", "com.example.Foo", ":1.5", "net.example.Baz"]
    [{ name := "com.example.Foo", owner := none,
       objects := [{ path := "/", interfaces := [],
                     error := some "Introspection failed: boom",
                     child_nodes := [] }],
       error := none },
     { name := "net.example.Baz", owner := none,
       objects := [{ path := "/", interfaces := [],
                     error := some "Introspection failed: boom",
                     child_nodes := [] }],
       error := none }]
    rfl rfl
